import Mathlib

/-!
Verification development for the task-manager backend.

This file gives a shallow embedding of the pieces of the backend that the
frozen claims are about:

* the JSON parse-with-fallback step of the AI enhancement service
  (OpenAIService.parseEnhancementResponse and OpenAIService.parseSplitResponse);
* the bearer-token authentication middleware (authenticateUser);
* the task route handlers (list, get, create, put, delete, patch-status,
  children, with-children, the enhance-ai stub, and the status-stream setup),
  as functions over an explicit task table;
* the server-sent-event status channel as a small transition system whose
  actions are poll ticks, the connection-timeout firing, and client close.

External collaborators (the storage provider, the identity provider, the
language-model API, the JavaScript JSON parser) are passed in as explicit
parameters so that the embedded code mirrors the calls the source makes.
-/

namespace TaskManager

/-- A JSON value as produced by the platform JSON parser.  Numbers are kept
abstract as integers, which is enough for the claims considered here. -/
inductive Json where
  | null : Json
  | bool (b : Bool) : Json
  | num (n : Int) : Json
  | str (s : String) : Json
  | arr (xs : List Json) : Json
  | obj (fields : List (String × Json)) : Json

/-- JavaScript truthiness of a JSON value: null, false, 0 and the empty
string are falsy; arrays and objects are always truthy. -/
def truthy : Json → Bool
  | Json.null => false
  | Json.bool b => b
  | Json.num n => n != 0
  | Json.str s => s != ""
  | Json.arr _ => true
  | Json.obj _ => true

/-- Property access on a parsed JSON value: the first binding of the field
in an object, and nothing on any other shape. -/
def jsGet : Json → String → Option Json
  | Json.obj fields, k =>
    match fields.find? (fun f => f.fst == k) with
    | some f => some f.snd
    | none => none
  | _, _ => none

/-- The JavaScript expression `v || d` applied to an optionally-present
property: the property value when present and truthy, the default otherwise. -/
def jsOr (v : Option Json) (d : Json) : Json :=
  match v with
  | some x => if truthy x then x else d
  | none => d

/-- Length of a JSON array, if the value is an array. -/
def jsonArrLen : Json → Option Nat
  | Json.arr xs => some xs.length
  | _ => none

/-- Index of the first occurrence of a character in a list, if any. -/
def firstIdx (cs : List Char) (c : Char) : Option Nat :=
  match cs with
  | [] => none
  | x :: xs =>
    if x == c then some 0
    else match firstIdx xs c with
      | some i => some (i + 1)
      | none => none

/-- Index of the last occurrence of a character in a list, if any. -/
def lastIdx (cs : List Char) (c : Char) : Option Nat :=
  match cs with
  | [] => none
  | x :: xs =>
    match lastIdx xs c with
    | some i => some (i + 1)
    | none => if x == c then some 0 else none

/-- The span matched by the regular expression over the raw model reply in
OpenAIService: an opening curly brace, any characters, and a closing curly
brace, with the quantifier greedy.  The leftmost match runs from the first
opening brace to the last closing brace of the whole reply, and exists
exactly when some closing brace occurs after the first opening brace. -/
def jsonSpan (s : String) : Option String :=
  let cs := s.toList
  match firstIdx cs '{', lastIdx cs '}' with
  | some i, some j =>
    if i < j then some (String.mk ((cs.drop i).take (j - i + 1))) else none
  | _, _ => none

/-- The JavaScript expression content.split at newlines, first element:
the prefix of the reply up to the first newline. -/
def firstLine (s : String) : String :=
  (s.splitOn "\n").headD ""

/-- Result shape of OpenAIService.parseEnhancementResponse.  Field values
are kept as JSON values because the source copies whatever the parsed
object held, subject only to the truthiness defaults. -/
structure EnhancementResult where
  enhanced_title : Json
  enhanced_description : Json
  enhancement_notes : Json

/-- Result shape of OpenAIService.parseSplitResponse. -/
structure SplitResult where
  subtasks : Json
  split_reasoning : Json

/-- OpenAIService.parseEnhancementResponse.  The platform JSON parser is
passed in as jparse; the two throw sites of the source (no regex match, and
a parse failure) both land in the single catch block, which the bind on the
option collapses into the none branch. -/
def parseEnhancementResponse (jparse : String → Option Json) (content : String) :
    EnhancementResult :=
  match (jsonSpan content).bind jparse with
  | some parsed =>
    { enhanced_title := jsOr (jsGet parsed "enhanced_title") (Json.str "")
      enhanced_description := jsOr (jsGet parsed "enhanced_description") (Json.str "")
      enhancement_notes :=
        jsOr (jsGet parsed "enhancement_notes")
          (Json.str "Task enhanced for clarity and actionability") }
  | none =>
    { enhanced_title :=
        Json.str ("[Enhanced] " ++
          (if firstLine content == "" then "Task" else firstLine content))
      enhanced_description := Json.str content
      enhancement_notes :=
        Json.str "Task enhanced using AI (parsing failed, using raw response)" }

/-- The three fixed subtasks of the split fallback path, verbatim from
OpenAIService.parseSplitResponse. -/
def splitFallbackSubtasks : List Json :=
  [ Json.obj
      [ ("title", Json.str "Research and Planning"),
        ("description", Json.str "Initial research and planning phase"),
        ("estimated_effort", Json.str "2-3 hours"),
        ("priority", Json.str "medium"),
        ("tags", Json.arr [Json.str "planning"]) ],
    Json.obj
      [ ("title", Json.str "Implementation"),
        ("description", Json.str "Main implementation work"),
        ("estimated_effort", Json.str "4-8 hours"),
        ("priority", Json.str "high"),
        ("tags", Json.arr [Json.str "execution"]) ],
    Json.obj
      [ ("title", Json.str "Review and Testing"),
        ("description", Json.str "Final review and testing"),
        ("estimated_effort", Json.str "1-2 hours"),
        ("priority", Json.str "medium"),
        ("tags", Json.arr [Json.str "review"]) ] ]

/-- OpenAIService.parseSplitResponse, with the same structure as the
enhancement parser: extract the brace span, parse it, and on any failure
return the fixed fallback breakdown. -/
def parseSplitResponse (jparse : String → Option Json) (content : String) :
    SplitResult :=
  match (jsonSpan content).bind jparse with
  | some parsed =>
    { subtasks := jsOr (jsGet parsed "subtasks") (Json.arr [])
      split_reasoning :=
        jsOr (jsGet parsed "split_reasoning")
          (Json.str "Task broken down into logical subtasks") }
  | none =>
    { subtasks := Json.arr splitFallbackSubtasks
      split_reasoning := Json.str "Task split into basic phases due to parsing error" }

/-- Outcome of the authentication middleware: either a response is written
and the chain stops, or the resolved principal is attached to the request
and control passes to the route handler. -/
inductive AuthOutcome where
  | respond (status : Nat) (error message : String) : AuthOutcome
  | proceed (userId token : String) : AuthOutcome

/-- The authenticateUser middleware.  The identity provider call
supabase.auth.getUser is passed in as getUser, returning the user id for an
accepted token and nothing for a rejected one.  A missing header and a
header value that does not start with the Bearer prefix take the first 401
branch (an empty header string cannot start with the prefix, so the source
falsiness test on the header is subsumed); a token the provider rejects
takes the second 401 branch; otherwise the principal is attached and the
chain continues. -/
def authenticateUser (getUser : String → Option String)
    (authHeader : Option String) : AuthOutcome :=
  match authHeader with
  | none =>
    AuthOutcome.respond 401 "Unauthorized" "Missing or invalid authorization header"
  | some hd =>
    if !(hd.startsWith "Bearer ") then
      AuthOutcome.respond 401 "Unauthorized" "Missing or invalid authorization header"
    else
      match getUser (hd.drop 7) with
      | none =>
        AuthOutcome.respond 401 "Unauthorized" "Invalid or expired token"
      | some u => AuthOutcome.proceed u (hd.drop 7)

/-- A row of the tasks table, with the columns the considered routes touch. -/
structure TaskRow where
  id : String
  user_id : String
  title : String
  description : Option String := none
  status : String := "not_started"
  priority : String := "medium"
  due_date : Option String := none
  estimated_hours : Option Nat := none
  tags : List String := []
  parent_task_id : Option String := none
  ai_enhancement_status : Option String := some "not_enhanced"
  updated_at : String := ""
deriving DecidableEq

/-- A record of one query issued against the tasks table: its kind and the
user-id equality filter it carries (for an insert, the user_id value written). -/
structure DbQuery where
  kind : String
  userEq : Option String
deriving DecidableEq

/-- The observable outcome of one route handler invocation: the HTTP
status, the task rows included in the response body, the message string of
the body, the table contents afterwards, and the log of queries issued. -/
structure HandlerOut where
  httpStatus : Nat
  tasks : List TaskRow := []
  message : String := ""
  db : List TaskRow
  queries : List DbQuery := []

/-- The single-row read path of the storage client: exactly one matching
row yields that row, anything else is an error result. -/
def dbSingle (db : List TaskRow) (p : TaskRow → Bool) : Option TaskRow :=
  match db.filter p with
  | [t] => some t
  | _ => none

/-- The allowed status values of the extended schema, from the create and
patch-status handlers of the current routes file. -/
def validStatusesExtended : List String :=
  ["not_started", "planning", "in_progress", "review", "testing",
   "completed", "on_hold", "cancelled", "deferred", "blocked"]

/-- The allowed status values of the narrow schema, from the earlier
variant of the patch-status handler kept in the repository. -/
def validStatusesNarrow : List String :=
  ["pending", "in_progress", "completed", "cancelled"]

/-- The allowed priority values. -/
def validPriorities : List String :=
  ["low", "medium", "high"]

/-- True when the submitted status value is rejected by the handler before
any write: it is absent or empty (the falsiness test of the source), or it
is not in the allowed set. -/
def rejectedStatus (valid : List String) (s? : Option String) : Bool :=
  s?.getD "" == "" || !(valid.contains (s?.getD ""))

/-- Request body of the create-task route. -/
structure CreateBody where
  title : Option String := none
  description : Option String := none
  status : Option String := none
  priority : Option String := none
  due_date : Option String := none
  estimated_hours : Option Nat := none
  tags : Option (List String) := none
  parent_task_id : Option String := none
deriving DecidableEq

/-- Request body of the put-task route; absent fields are left unchanged
because the storage client drops undefined values from the update object. -/
structure UpdateBody where
  title : Option String := none
  description : Option String := none
  status : Option String := none
  priority : Option String := none
  due_date : Option String := none
  estimated_hours : Option Nat := none
  tags : Option (List String) := none
  parent_task_id : Option String := none
deriving DecidableEq

/-- Row filter of the queries that select one task by id for the caller. -/
def ownFilter (uid tid : String) (t : TaskRow) : Bool :=
  t.id == tid && t.user_id == uid

/-- The list-tasks handler of the current routes file: a select filtered by
the caller's user id with a limit, and, when it comes back empty, a
service-role probe that bypasses row-level security but carries the same
user-id equality filter and only feeds a diagnostic boolean. -/
def getTasksHandler (db : List TaskRow) (uid : String) (limit : Option Nat) :
    HandlerOut :=
  let lim := limit.getD 200
  let tasks := (db.filter (fun t => t.user_id == uid)).take lim
  if tasks.isEmpty then
    { httpStatus := 200, tasks := tasks, db := db,
      queries := [⟨"select", some uid⟩, ⟨"service-select", some uid⟩] }
  else
    { httpStatus := 200, tasks := tasks, db := db,
      queries := [⟨"select", some uid⟩] }

/-- The get-one-task handler: single select by id and caller, 404 when the
single read errs. -/
def getTaskHandler (db : List TaskRow) (uid tid : String) : HandlerOut :=
  match dbSingle db (ownFilter uid tid) with
  | none =>
    { httpStatus := 404, db := db, queries := [⟨"select", some uid⟩] }
  | some t =>
    { httpStatus := 200, tasks := [t], db := db, queries := [⟨"select", some uid⟩] }

/-- The create-task handler of the current routes file: title presence,
status and priority validation, then an insert whose user_id is the
caller's id.  The defaulted status and priority values are only validated
when truthy, exactly as in the source. -/
def createTaskHandler (db : List TaskRow) (uid : String) (b : CreateBody)
    (newId now : String) : HandlerOut :=
  if b.title.getD "" == "" then
    { httpStatus := 400, db := db }
  else
    let effStatus := b.status.getD "not_started"
    if effStatus != "" && !(validStatusesExtended.contains effStatus) then
      { httpStatus := 400, db := db }
    else
      let effPriority := b.priority.getD "medium"
      if effPriority != "" && !(validPriorities.contains effPriority) then
        { httpStatus := 400, db := db }
      else
        let row : TaskRow :=
          { id := newId, user_id := uid, title := b.title.getD "",
            description := b.description, status := effStatus,
            priority := effPriority, due_date := b.due_date,
            estimated_hours := b.estimated_hours, tags := b.tags.getD [],
            parent_task_id := b.parent_task_id, updated_at := now }
        { httpStatus := 201, tasks := [row], db := db ++ [row],
          queries := [⟨"insert", some uid⟩] }

/-- Application of a put-request body to a stored row: provided fields
overwrite, absent fields are kept, and the parent reference is only set
when truthy. -/
def applyUpdate (b : UpdateBody) (now : String) (t : TaskRow) : TaskRow :=
  { t with
    title := b.title.getD t.title
    description := match b.description with | some d => some d | none => t.description
    status := b.status.getD t.status
    priority := b.priority.getD t.priority
    due_date := match b.due_date with | some d => some d | none => t.due_date
    estimated_hours :=
      match b.estimated_hours with | some h => some h | none => t.estimated_hours
    tags := b.tags.getD t.tags
    parent_task_id :=
      match b.parent_task_id with
      | some p => if p != "" then some p else t.parent_task_id
      | none => t.parent_task_id
    updated_at := now }

/-- The put-task handler: an ownership pre-check by id and caller, then an
update filtered by the same id and caller. -/
def putTaskHandler (db : List TaskRow) (uid tid : String) (b : UpdateBody)
    (now : String) : HandlerOut :=
  match dbSingle db (ownFilter uid tid) with
  | none =>
    { httpStatus := 404, db := db, queries := [⟨"select", some uid⟩] }
  | some _ =>
    let db' := db.map (fun t => if ownFilter uid tid t then applyUpdate b now t else t)
    match dbSingle db' (ownFilter uid tid) with
    | none =>
      { httpStatus := 400, db := db',
        queries := [⟨"select", some uid⟩, ⟨"update", some uid⟩] }
    | some t' =>
      { httpStatus := 200, tasks := [t'], db := db',
        queries := [⟨"select", some uid⟩, ⟨"update", some uid⟩] }

/-- The delete-task handler: an ownership pre-check, then a delete filtered
by the same id and caller. -/
def deleteTaskHandler (db : List TaskRow) (uid tid : String) : HandlerOut :=
  match dbSingle db (ownFilter uid tid) with
  | none =>
    { httpStatus := 404, db := db, queries := [⟨"select", some uid⟩] }
  | some _ =>
    { httpStatus := 200, db := db.filter (fun t => !(ownFilter uid tid t)),
      queries := [⟨"select", some uid⟩, ⟨"delete", some uid⟩] }

/-- The patch-status handler of the current routes file: presence check and
membership in the extended status set, both before any query, then an
update filtered by id and caller. -/
def patchTaskStatus (db : List TaskRow) (uid tid : String)
    (status? : Option String) (now : String) : HandlerOut :=
  if status?.getD "" == "" then
    { httpStatus := 400, db := db }
  else if !(validStatusesExtended.contains (status?.getD "")) then
    { httpStatus := 400, db := db }
  else
    let db' := db.map (fun t =>
      if ownFilter uid tid t then
        { t with status := status?.getD "", updated_at := now }
      else t)
    match dbSingle db' (ownFilter uid tid) with
    | none =>
      { httpStatus := 400, db := db', queries := [⟨"update", some uid⟩] }
    | some t' =>
      { httpStatus := 200, tasks := [t'], db := db',
        queries := [⟨"update", some uid⟩] }

/-- The earlier, narrow-schema variant of the patch-status handler kept in
the repository: identical shape, with the four-value status set. -/
def patchTaskStatusNarrow (db : List TaskRow) (uid tid : String)
    (status? : Option String) (now : String) : HandlerOut :=
  if status?.getD "" == "" then
    { httpStatus := 400, db := db }
  else if !(validStatusesNarrow.contains (status?.getD "")) then
    { httpStatus := 400, db := db }
  else
    let db' := db.map (fun t =>
      if ownFilter uid tid t then
        { t with status := status?.getD "", updated_at := now }
      else t)
    match dbSingle db' (ownFilter uid tid) with
    | none =>
      { httpStatus := 400, db := db', queries := [⟨"update", some uid⟩] }
    | some t' =>
      { httpStatus := 200, tasks := [t'], db := db',
        queries := [⟨"update", some uid⟩] }

/-- The children handler: a select over rows whose parent reference is the
given id, filtered by the caller. -/
def getChildrenHandler (db : List TaskRow) (uid tid : String) : HandlerOut :=
  { httpStatus := 200,
    tasks := db.filter (fun t => t.parent_task_id == some tid && t.user_id == uid),
    db := db, queries := [⟨"select", some uid⟩] }

/-- The with-children handler: a single select of the parent by id and
caller, then a select of the children filtered by the caller. -/
def getWithChildrenHandler (db : List TaskRow) (uid tid : String) : HandlerOut :=
  match dbSingle db (ownFilter uid tid) with
  | none =>
    { httpStatus := 404, db := db, queries := [⟨"select", some uid⟩] }
  | some p =>
    { httpStatus := 200,
      tasks := p :: db.filter (fun t => t.parent_task_id == some tid && t.user_id == uid),
      db := db, queries := [⟨"select", some uid⟩, ⟨"select", some uid⟩] }

/-- The enhance-ai route handler as it stands in the routes file: it logs
the call and immediately answers 200 with a fixed message; it validates
nothing, issues no query, calls no model, and writes nothing. -/
def enhanceAiHandler (db : List TaskRow) (uid tid : String)
    (enhancementType : Option String) : HandlerOut :=
  { httpStatus := 200, message := "AI enhancement started", db := db }

/-- A request to one of the task routes, by an authenticated caller. -/
inductive Req where
  | list (limit : Option Nat) : Req
  | getOne (tid : String) : Req
  | create (b : CreateBody) (newId now : String) : Req
  | put (tid : String) (b : UpdateBody) (now : String) : Req
  | del (tid : String) : Req
  | patchStatus (tid : String) (status? : Option String) (now : String) : Req
  | patchStatusNarrow (tid : String) (status? : Option String) (now : String) : Req
  | children (tid : String) : Req
  | withChildren (tid : String) : Req
  | enhanceAi (tid : String) (enhancementType : Option String) : Req
  | sseOpen (tid : String) : Req

/-- Dispatch of a request to its handler.  The status-stream route is
represented here by its setup query; its event behavior is modeled
separately below. -/
def handle (r : Req) (uid : String) (db : List TaskRow) : HandlerOut :=
  match r with
  | Req.list limit => getTasksHandler db uid limit
  | Req.getOne tid => getTaskHandler db uid tid
  | Req.create b newId now => createTaskHandler db uid b newId now
  | Req.put tid b now => putTaskHandler db uid tid b now
  | Req.del tid => deleteTaskHandler db uid tid
  | Req.patchStatus tid s? now => patchTaskStatus db uid tid s? now
  | Req.patchStatusNarrow tid s? now => patchTaskStatusNarrow db uid tid s? now
  | Req.children tid => getChildrenHandler db uid tid
  | Req.withChildren tid => getWithChildrenHandler db uid tid
  | Req.enhanceAi tid et => enhanceAiHandler db uid tid et
  | Req.sseOpen tid =>
    { httpStatus := 200, db := db, queries := [⟨"select", some uid⟩] }

/-- An event written to the status stream. -/
inductive SseEvent where
  | connected : SseEvent
  | statusEv (status : String) (progress : Nat) (message : String) : SseEvent
  | completeEv : SseEvent
  | errorEv (message : String) : SseEvent
  | timeoutEv : SseEvent
deriving DecidableEq

/-- Terminal events of the status channel: complete, error, and timeout. -/
def SseEvent.isTerminal : SseEvent → Bool
  | SseEvent.completeEv => true
  | SseEvent.errorEv _ => true
  | SseEvent.timeoutEv => true
  | _ => false

/-- Number of terminal events in a trace. -/
def terminalCount (evs : List SseEvent) : Nat :=
  (evs.filter SseEvent.isTerminal).length

/-- Connection state of one status-stream subscription: which timers are
still registered and whether the response has been ended. -/
structure SseConn where
  uid : String
  tid : String
  intervalActive : Bool
  timeoutActive : Bool
  ended : Bool
deriving DecidableEq

/-- Result of opening the status stream: the HTTP status written, the
connection state, and the events written during setup. -/
structure SseInitResult where
  httpStatus : Nat
  conn : SseConn
  events : List SseEvent
deriving DecidableEq

/-- The progress and message attached to a status value by the polling
loop's switch statement. -/
def progressMessageOf (status : String) : Nat × String :=
  if status == "not_enhanced" then (0, "Ready for enhancement")
  else if status == "enhanced" then (100, "Enhancement completed successfully")
  else if status == "enhancement_failed" then (0, "Enhancement failed")
  else (50, "Enhancement in progress...")

/-- Opening the status stream: the handler writes the 200 event-stream
head and the connected event first, and only then runs the single select
by id and caller.  A failed lookup writes an in-stream error event and
ends the response without registering any timer; a successful one writes
the initial status event, always with progress 0 and a fixed message, and
registers both the polling interval and the connection timeout. -/
def sseInit (db : List TaskRow) (uid tid : String) : SseInitResult :=
  match dbSingle db (ownFilter uid tid) with
  | none =>
    { httpStatus := 200
      conn := ⟨uid, tid, false, false, true⟩
      events := [SseEvent.connected, SseEvent.errorEv "Task not found"] }
  | some t =>
    { httpStatus := 200
      conn := ⟨uid, tid, true, true, false⟩
      events := [SseEvent.connected,
        SseEvent.statusEv (t.ai_enhancement_status.getD "not_enhanced") 0
          "Monitoring enhancement status..."] }

/-- An occurrence on an open status channel: a two-second poll tick reading
the table as it stands at that moment, the connection timeout firing, or
the client closing the connection. -/
inductive SseAction where
  | tick (db : List TaskRow) : SseAction
  | timeoutFire : SseAction
  | clientClose : SseAction

/-- One step of the status channel, faithful to the source callbacks.  A
tick whose interval has been cleared does nothing.  A live tick re-reads
the row by id and caller: a read failure writes an error event, clears both
timers and ends; otherwise a status event with the mapped progress is
written, and a terminal status additionally clears both timers, writes the
complete or error event and ends.  The timeout callback writes the timeout
event and ends the response but clears only itself: the source forgets to
clear the polling interval there.  A client close clears both timers and
ends without writing. -/
def sseStep (c : SseConn) : SseAction → SseConn × List SseEvent
  | SseAction.tick db =>
    if !c.intervalActive then (c, [])
    else
      match dbSingle db (ownFilter c.uid c.tid) with
      | none =>
        ({ c with intervalActive := false, timeoutActive := false, ended := true },
         [SseEvent.errorEv "Failed to fetch task status"])
      | some row =>
        let status := row.ai_enhancement_status.getD "not_enhanced"
        let pm := progressMessageOf status
        if status == "enhanced" then
          ({ c with intervalActive := false, timeoutActive := false, ended := true },
           [SseEvent.statusEv status pm.1 pm.2, SseEvent.completeEv])
        else if status == "enhancement_failed" then
          ({ c with intervalActive := false, timeoutActive := false, ended := true },
           [SseEvent.statusEv status pm.1 pm.2, SseEvent.errorEv "AI enhancement failed"])
        else (c, [SseEvent.statusEv status pm.1 pm.2])
  | SseAction.timeoutFire =>
    if !c.timeoutActive then (c, [])
    else
      ({ c with timeoutActive := false, ended := true }, [SseEvent.timeoutEv])
  | SseAction.clientClose =>
    ({ c with intervalActive := false, timeoutActive := false, ended := true }, [])

/-- Run of the status channel over a schedule of actions, accumulating the
written events. -/
def sseSteps (c : SseConn) (acts : List SseAction) : SseConn × List SseEvent :=
  match acts with
  | [] => (c, [])
  | a :: rest =>
    let s := sseStep c a
    let r := sseSteps s.1 rest
    (r.1, s.2 ++ r.2)

/-- Full trace of one status-stream connection: the setup events followed
by the events of the scheduled actions. -/
def sseRun (db : List TaskRow) (uid tid : String) (acts : List SseAction) :
    List SseEvent :=
  let init := sseInit db uid tid
  init.events ++ (sseSteps init.conn acts).2

/-- A sample task owned by principal u1, enhancement status still at its
column default. -/
def taskPending : TaskRow :=
  { id := "t1", user_id := "u1", title := "Build website" }

/-- The same task after a successful enhancement. -/
def taskEnhanced : TaskRow :=
  { taskPending with ai_enhancement_status := some "enhanced" }

/-- C1: the enhance-ai route handler, as it stands, answers 200 with the
fixed message for every request: here it is evaluated on an authenticated
request whose task id matches no row at all and whose enhancement type is
not one of the two allowed values, and it still answers 200 instead of a
404 NotFound or a validation error, issuing no query and touching nothing. -/
theorem enhance_ai_stub_accepts_missing_task_and_bad_mode :
    enhanceAiHandler [] "principal-q" "missing-task" (some "not-a-mode") =
      { httpStatus := 200, message := "AI enhancement started", db := [] } := rfl

/-- C2: the enhance-ai route handler issues no query and leaves the table
exactly as it was for every enhance-mode request, while answering 200; a
task whose ai_enhancement_status is the column default not_enhanced
therefore still carries not_enhanced after the response is sent, which
contradicts the claim that it is enhanced or enhancement_failed. -/
theorem enhance_ai_stub_writes_no_status (db : List TaskRow) (uid tid : String) :
    (enhanceAiHandler db uid tid (some "enhance")).httpStatus = 200 ∧
    (enhanceAiHandler db uid tid (some "enhance")).db = db ∧
    (enhanceAiHandler db uid tid (some "enhance")).queries = [] :=
  ⟨rfl, rfl, rfl⟩

/-- C3: for split-mode requests the route handler creates no rows at all
and never invokes the split parser, while the parser fallback path returns
exactly three subtasks; the number of created children (zero) therefore
cannot equal the number of subtasks returned by the parser. -/
theorem enhance_ai_stub_creates_no_subtasks (db : List TaskRow) (uid tid : String) :
    (enhanceAiHandler db uid tid (some "split")).db = db ∧
    (enhanceAiHandler db uid tid (some "split")).queries = [] ∧
    jsonArrLen (parseSplitResponse (fun _ => none)
      "The task is too vague to split.").subtasks = some 3 :=
  ⟨rfl, rfl, rfl⟩

/-- C4: when the model reply contains no parsable JSON object span, both
parse steps return their deterministic fallbacks verbatim and raise
nothing: enhance mode marks the first line of the raw reply (or the word
Task when that line is empty) with the Enhanced prefix and keeps the whole
raw reply as description, and split mode returns exactly the three fixed
subtasks, titled Research and Planning, Implementation, and Review and
Testing, with their fixed efforts and priorities, plus the note that the
automatic split failed. -/
theorem parse_fallback_on_malformed_reply (jparse : String → Option Json)
    (content : String) (h : (jsonSpan content).bind jparse = none) :
    parseEnhancementResponse jparse content =
      { enhanced_title :=
          Json.str ("[Enhanced] " ++
            (if firstLine content == "" then "Task" else firstLine content))
        enhanced_description := Json.str content
        enhancement_notes :=
          Json.str "Task enhanced using AI (parsing failed, using raw response)" } ∧
    parseSplitResponse jparse content =
      { subtasks := Json.arr splitFallbackSubtasks
        split_reasoning :=
          Json.str "Task split into basic phases due to parsing error" } ∧
    splitFallbackSubtasks.map (fun j => jsGet j "title") =
      [some (Json.str "Research and Planning"),
       some (Json.str "Implementation"),
       some (Json.str "Review and Testing")] := by
  unfold parseEnhancementResponse parseSplitResponse
  rw [h]
  exact ⟨rfl, rfl, rfl⟩

/-- Witness for C4 at a concrete malformed reply with no braces, with the
platform parser refusing everything. -/
theorem parse_fallback_on_malformed_reply_witness :
    (jsonSpan "Sure, I will enhance this task.").bind
      (fun _ => (none : Option Json)) = none ∧
    (parseEnhancementResponse (fun _ => none) "Sure, I will enhance this task." =
      { enhanced_title :=
          Json.str ("[Enhanced] " ++
            (if firstLine "Sure, I will enhance this task." == "" then "Task"
             else firstLine "Sure, I will enhance this task."))
        enhanced_description := Json.str "Sure, I will enhance this task."
        enhancement_notes :=
          Json.str "Task enhanced using AI (parsing failed, using raw response)" } ∧
    parseSplitResponse (fun _ => none) "Sure, I will enhance this task." =
      { subtasks := Json.arr splitFallbackSubtasks
        split_reasoning :=
          Json.str "Task split into basic phases due to parsing error" } ∧
    splitFallbackSubtasks.map (fun j => jsGet j "title") =
      [some (Json.str "Research and Planning"),
       some (Json.str "Implementation"),
       some (Json.str "Review and Testing")]) :=
  ⟨rfl, parse_fallback_on_malformed_reply (fun _ => none)
    "Sure, I will enhance this task." rfl⟩

/-- C7: a patch-status request whose status value is missing, empty, or
outside the handling variant's own allowed status set is answered 400 by
that handler, with no query issued and the table left exactly as it was:
the validation happens before any write and the value is never coerced.
The two implications are independent, so a value accepted by one schema
and rejected by the other is still covered for the rejecting handler. -/
theorem patch_status_invalid_rejected_before_write (db : List TaskRow)
    (uid tid : String) (s? : Option String) (now : String) :
    (rejectedStatus validStatusesExtended s? = true →
      (patchTaskStatus db uid tid s? now).httpStatus = 400 ∧
      (patchTaskStatus db uid tid s? now).db = db ∧
      (patchTaskStatus db uid tid s? now).queries = []) ∧
    (rejectedStatus validStatusesNarrow s? = true →
      (patchTaskStatusNarrow db uid tid s? now).httpStatus = 400 ∧
      (patchTaskStatusNarrow db uid tid s? now).db = db ∧
      (patchTaskStatusNarrow db uid tid s? now).queries = []) := by
  constructor
  · intro hx
    simp only [rejectedStatus, Bool.or_eq_true, beq_iff_eq,
      Bool.not_eq_true'] at hx
    by_cases he : s?.getD "" = ""
    · unfold patchTaskStatus
      simp [he]
    · have hmx : s?.getD "" ∉ validStatusesExtended := by
        simpa using hx.resolve_left he
      unfold patchTaskStatus
      simp [he, hmx]
  · intro hn
    simp only [rejectedStatus, Bool.or_eq_true, beq_iff_eq,
      Bool.not_eq_true'] at hn
    by_cases he : s?.getD "" = ""
    · unfold patchTaskStatusNarrow
      simp [he]
    · have hmn : s?.getD "" ∉ validStatusesNarrow := by
        simpa using hn.resolve_left he
      unfold patchTaskStatusNarrow
      simp [he, hmn]

/-- Witness for C7 on a one-row table, at the two asymmetric values: the
narrow-schema value pending sent to the extended handler, and the
extended-schema value planning sent to the narrow handler, each rejected
only by the handler that receives it. -/
theorem patch_status_invalid_rejected_before_write_witness :
    rejectedStatus validStatusesExtended (some "pending") = true ∧
    ((patchTaskStatus [taskPending] "u1" "t1" (some "pending") "now").httpStatus = 400 ∧
     (patchTaskStatus [taskPending] "u1" "t1" (some "pending") "now").db = [taskPending] ∧
     (patchTaskStatus [taskPending] "u1" "t1" (some "pending") "now").queries = []) ∧
    rejectedStatus validStatusesNarrow (some "planning") = true ∧
    ((patchTaskStatusNarrow [taskPending] "u1" "t1" (some "planning") "now").httpStatus = 400 ∧
     (patchTaskStatusNarrow [taskPending] "u1" "t1" (some "planning") "now").db = [taskPending] ∧
     (patchTaskStatusNarrow [taskPending] "u1" "t1" (some "planning") "now").queries = []) :=
  ⟨by decide,
   (patch_status_invalid_rejected_before_write [taskPending] "u1" "t1"
     (some "pending") "now").1 (by decide),
   by decide,
   (patch_status_invalid_rejected_before_write [taskPending] "u1" "t1"
     (some "planning") "now").2 (by decide)⟩

/-- C8: a request whose authorization header is absent, does not carry the
Bearer prefix, or carries a token the identity provider rejects, is
answered 401 with the structured error and message fields of the
Unauthorized body, and the middleware never reaches the proceed outcome
that would invoke the route handler. -/
theorem auth_rejects_bad_header_or_token (getUser : String → Option String)
    (authHeader : Option String)
    (h : match authHeader with
         | none => True
         | some hd =>
           hd.startsWith "Bearer " = false ∨ getUser (hd.drop 7) = none) :
    ∃ m, authenticateUser getUser authHeader =
      AuthOutcome.respond 401 "Unauthorized" m := by
  cases authHeader with
  | none => exact ⟨"Missing or invalid authorization header", rfl⟩
  | some hd =>
    rcases h with hb | ht
    · exact ⟨"Missing or invalid authorization header",
        by simp [authenticateUser, hb]⟩
    · by_cases hb : hd.startsWith "Bearer "
      · exact ⟨"Invalid or expired token", by simp [authenticateUser, hb, ht]⟩
      · exact ⟨"Missing or invalid authorization header",
          by simp [authenticateUser, hb]⟩

/-- Witness for C8: a well-formed Bearer header whose token the identity
provider rejects. -/
theorem auth_rejects_bad_header_or_token_witness :
    (("Bearer abc").startsWith "Bearer " = false ∨
      (fun _ => (none : Option String)) (("Bearer abc").drop 7) = none) ∧
    ∃ m, authenticateUser (fun _ => (none : Option String)) (some "Bearer abc") =
      AuthOutcome.respond 401 "Unauthorized" m :=
  ⟨Or.inr rfl,
   auth_rejects_bad_header_or_token (fun _ => none) (some "Bearer abc")
     (Or.inr rfl)⟩

/-- C10: the status-stream route writes the 200 event-stream head and the
connected event before the ownership lookup runs, so a request for a
missing or unowned task still receives a 200 stream whose trace is the
connected event followed by an in-stream error event, and the response is
then ended; no 404 response exists on this route. -/
theorem sse_open_streams_before_ownership_check (db : List TaskRow)
    (uid tid : String) :
    (sseInit db uid tid).httpStatus = 200 ∧
    (sseInit db uid tid).events.head? = some SseEvent.connected ∧
    (dbSingle db (ownFilter uid tid) = none →
      (sseInit db uid tid).events =
        [SseEvent.connected, SseEvent.errorEv "Task not found"] ∧
      (sseInit db uid tid).conn.ended = true) := by
  unfold sseInit
  cases h : dbSingle db (ownFilter uid tid) <;> simp [h]

/-- Witness for C10 on an empty table, where the lookup necessarily fails. -/
theorem sse_open_streams_before_ownership_check_witness :
    (sseInit [] "principal-q" "t9").httpStatus = 200 ∧
    (sseInit [] "principal-q" "t9").events =
      [SseEvent.connected, SseEvent.errorEv "Task not found"] ∧
    (sseInit [] "principal-q" "t9").conn.ended = true :=
  ⟨(sse_open_streams_before_ownership_check [] "principal-q" "t9").1,
   ((sse_open_streams_before_ownership_check [] "principal-q" "t9").2.2 rfl).1,
   ((sse_open_streams_before_ownership_check [] "principal-q" "t9").2.2 rfl).2⟩

/-- C5: the timeout callback of the status channel ends the response but
does not clear the polling interval, so the channel can emit more than one
terminal event.  Here a connection is opened on a task still at
not_enhanced, one poll reads not_enhanced, the 120-second connection
timeout then fires and writes the terminal timeout event, and because the
interval is still registered the next poll reads the now-enhanced row and
writes a further status event and a second terminal event, complete, after
the terminal timeout event. -/
theorem sse_timeout_leaves_interval_running :
    sseRun [taskPending] "u1" "t1"
        [SseAction.tick [taskPending], SseAction.timeoutFire,
         SseAction.tick [taskEnhanced]] =
      [SseEvent.connected,
       SseEvent.statusEv "not_enhanced" 0 "Monitoring enhancement status...",
       SseEvent.statusEv "not_enhanced" 0 "Ready for enhancement",
       SseEvent.timeoutEv,
       SseEvent.statusEv "enhanced" 100 "Enhancement completed successfully",
       SseEvent.completeEv] ∧
    terminalCount
      (sseRun [taskPending] "u1" "t1"
        [SseAction.tick [taskPending], SseAction.timeoutFire,
         SseAction.tick [taskEnhanced]]) = 2 ∧
    (sseSteps (sseInit [taskPending] "u1" "t1").conn
      [SseAction.tick [taskPending], SseAction.timeoutFire]).1.intervalActive = true :=
  ⟨rfl, rfl, rfl⟩

/-- C6 counterexample: opening the stream on a task whose enhancement
status is already enhanced writes an immediate status event whose progress
is 0, although the fixed mapping of the enhanced status is 100; the
claimed immediate progress-100 event does not exist. -/
theorem sse_initial_status_event_not_mapped :
    (sseInit [taskEnhanced] "u1" "t1").events =
      [SseEvent.connected,
       SseEvent.statusEv "enhanced" 0 "Monitoring enhancement status..."] ∧
    (progressMessageOf "enhanced").1 = 100 ∧ (0 : Nat) ≠ 100 :=
  ⟨rfl, rfl, by decide⟩

/-- C6 amended: status events written by the polling loop carry the fixed
progress mapping of their status, with progress always one of 0, 50, 100;
the immediate status event written on open always carries progress 0
whatever the stored status is; and a stream opened on an already-enhanced
task writes the connected event and a status event with progress 0, then on
the first poll a status event with progress 100 followed by the complete
event, after which the response is ended. -/
theorem sse_status_event_progress_amended :
    (∀ (c : SseConn) (db : List TaskRow),
      (((sseStep c (SseAction.tick db)).2).all fun e =>
        match e with
        | SseEvent.statusEv st p m =>
          decide ((p, m) = progressMessageOf st) && (p == 0 || p == 50 || p == 100)
        | _ => true) = true) ∧
    (∀ (db : List TaskRow) (uid tid : String),
      ((sseInit db uid tid).events.all fun e =>
        match e with
        | SseEvent.statusEv _ p _ => p == 0
        | _ => true) = true) ∧
    sseRun [taskEnhanced] "u1" "t1" [SseAction.tick [taskEnhanced]] =
      [SseEvent.connected,
       SseEvent.statusEv "enhanced" 0 "Monitoring enhancement status...",
       SseEvent.statusEv "enhanced" 100 "Enhancement completed successfully",
       SseEvent.completeEv] ∧
    (sseSteps (sseInit [taskEnhanced] "u1" "t1").conn
      [SseAction.tick [taskEnhanced]]).1.ended = true := by
  refine ⟨?_, ?_, rfl, rfl⟩
  · intro c db
    unfold sseStep
    by_cases hi : c.intervalActive
    · simp only [hi, Bool.not_true]
      cases hq : dbSingle db (ownFilter c.uid c.tid) with
      | none => simp
      | some row =>
        simp only
        by_cases h1 : (row.ai_enhancement_status.getD "not_enhanced") == "enhanced"
        · simp [h1, progressMessageOf, beq_iff_eq.mp h1]
        · by_cases h2 :
            (row.ai_enhancement_status.getD "not_enhanced") == "enhancement_failed"
          · simp [h1, h2, progressMessageOf, beq_iff_eq.mp h2]
          · simp only [h1, h2, Bool.false_eq_true, if_false, List.all_cons,
              List.all_nil, Bool.and_true]
            unfold progressMessageOf
            by_cases h0 :
              (row.ai_enhancement_status.getD "not_enhanced") == "not_enhanced"
            · simp [h0]
            · simp [h0, h1, h2]
    · simp [hi]
  · intro db uid tid
    unfold sseInit
    cases hq : dbSingle db (ownFilter uid tid) <;> simp [hq]

lemma all_user_of_filter (l : List TaskRow) (uid : String) (f : TaskRow → Bool)
    (hf : ∀ t, f t = true → (t.user_id == uid) = true) :
    ((l.filter f).all fun t => t.user_id == uid) = true := by
  rw [List.all_eq_true]
  intro x hx
  exact hf x (List.mem_filter.mp hx).2

lemma take_all (l : List TaskRow) (n : Nat) (p : TaskRow → Bool)
    (h : l.all p = true) : ((l.take n).all p) = true := by
  rw [List.all_eq_true] at h ⊢
  intro x hx
  exact h x (List.take_subset n l hx)

lemma ownFilter_user (uid tid : String) (t : TaskRow)
    (h : ownFilter uid tid t = true) : (t.user_id == uid) = true := by
  unfold ownFilter at h
  rw [Bool.and_eq_true] at h
  exact h.2

lemma dbSingle_own_user (db : List TaskRow) (uid tid : String) (t : TaskRow)
    (h : dbSingle db (ownFilter uid tid) = some t) : (t.user_id == uid) = true := by
  unfold dbSingle at h
  cases hf : db.filter (ownFilter uid tid) with
  | nil => rw [hf] at h; cases h
  | cons a rest =>
    cases rest with
    | nil =>
      rw [hf] at h
      injection h with h'
      subst h'
      have ha : a ∈ db.filter (ownFilter uid tid) := by
        rw [hf]; exact List.mem_cons_self _ _
      exact ownFilter_user uid tid a (List.mem_filter.mp ha).2
    | cons b rest2 => rw [hf] at h; cases h

lemma filter_not_owned_map (db : List TaskRow) (uid tid : String)
    (f : TaskRow → TaskRow) (hf : ∀ t, (f t).user_id = t.user_id) :
    ((db.map fun t => if ownFilter uid tid t then f t else t).filter
      fun t => !(t.user_id == uid)) =
    db.filter fun t => !(t.user_id == uid) := by
  induction db with
  | nil => rfl
  | cons t rest ih =>
    by_cases ho : ownFilter uid tid t = true
    · have hu := ownFilter_user uid tid t ho
      have hu' : ((f t).user_id == uid) = true := by rw [hf t]; exact hu
      simp [ho, hu, hu', List.filter_cons, ih]
    · simp [ho, List.filter_cons, ih]

lemma filter_not_owned_del (db : List TaskRow) (uid tid : String) :
    ((db.filter fun t => !(ownFilter uid tid t)).filter
      fun t => !(t.user_id == uid)) =
    db.filter fun t => !(t.user_id == uid) := by
  induction db with
  | nil => rfl
  | cons t rest ih =>
    by_cases hu : (t.user_id == uid) = true
    · by_cases ho : ownFilter uid tid t = true
      · simp [ho, hu, ih]
      · simp [ho, hu, ih]
    · have ho : ownFilter uid tid t = false := by
        unfold ownFilter
        cases hb : (t.user_id == uid) with
        | true => exact absurd hb hu
        | false => simp [hb]
      simp [ho, hu, List.filter_cons, ih]

/-- C9: ownership isolation of the task routes, stated over the embedded
request dispatcher.  For every request, every authenticated caller, and
every table state: the task rows placed in the response body all belong to
the caller; the rows of every other principal are exactly the same after
the request as before it; and every query the handlers issue against the
tasks table, the service-role fallback of the list route included, carries
the equality filter on the caller's user id.  Another principal therefore
cannot read, update, delete, or enumerate a task they do not own through
these routes. -/
theorem tasks_routes_ownership_isolation (r : Req) (uid : String)
    (db : List TaskRow) :
    ((handle r uid db).tasks.all fun t => t.user_id == uid) = true ∧
    ((handle r uid db).db.filter fun t => !(t.user_id == uid)) =
      (db.filter fun t => !(t.user_id == uid)) ∧
    ((handle r uid db).queries.all fun q => q.userEq == some uid) = true := by
  cases r with
  | list limit =>
    simp only [handle]
    unfold getTasksHandler
    have hall : ((db.filter fun t => t.user_id == uid).take
        ((limit).getD 200)).all (fun t => t.user_id == uid) = true :=
      take_all _ _ _ (all_user_of_filter db uid _ (fun _ h => h))
    by_cases he : ((db.filter fun t => t.user_id == uid).take
        ((limit).getD 200)).isEmpty
    · simp [he, hall]
    · simp [he, hall]
  | getOne tid =>
    simp only [handle]
    unfold getTaskHandler
    cases hq : dbSingle db (ownFilter uid tid) with
    | none => simp [hq]
    | some t => simp [hq, dbSingle_own_user db uid tid t hq]
  | create b newId now =>
    simp only [handle]
    unfold createTaskHandler
    by_cases h1 : (b.title.getD "" == "") = true
    · simp [h1]
    · by_cases h2 : ¬b.status.getD "not_started" = "" ∧
        b.status.getD "not_started" ∉ validStatusesExtended
      · simp [h1, h2]
      · by_cases h3 : ¬b.priority.getD "medium" = "" ∧
          b.priority.getD "medium" ∉ validPriorities
        · simp [h1, h2, h3]
        · simp [h1, h2, h3, List.filter_append]
  | put tid b now =>
    simp only [handle]
    unfold putTaskHandler
    cases hq : dbSingle db (ownFilter uid tid) with
    | none => simp [hq]
    | some t0 =>
      have hmap := filter_not_owned_map db uid tid (applyUpdate b now)
        (fun _ => rfl)
      cases hq' : dbSingle
          (db.map fun t => if ownFilter uid tid t then applyUpdate b now t else t)
          (ownFilter uid tid) with
      | none => simp [hq, hq', hmap]
      | some t' => simp [hq, hq', hmap, dbSingle_own_user _ uid tid t' hq']
  | del tid =>
    simp only [handle]
    unfold deleteTaskHandler
    cases hq : dbSingle db (ownFilter uid tid) with
    | none => simp [hq]
    | some t0 => simp [hq, filter_not_owned_del db uid tid]
  | patchStatus tid s? now =>
    simp only [handle]
    unfold patchTaskStatus
    by_cases h1 : s?.getD "" == ""
    · simp [h1]
    · by_cases h2 : s?.getD "" ∈ validStatusesExtended
      · have hmap := filter_not_owned_map db uid tid
          (fun t => { t with status := s?.getD "", updated_at := now })
          (fun _ => rfl)
        cases hq' : dbSingle
            (db.map fun t => if ownFilter uid tid t then
              { t with status := s?.getD "", updated_at := now } else t)
            (ownFilter uid tid) with
        | none => simp [h1, h2, hq', hmap]
        | some t' =>
          simp [h1, h2, hq', hmap, dbSingle_own_user _ uid tid t' hq']
      · simp [h1, h2]
  | patchStatusNarrow tid s? now =>
    simp only [handle]
    unfold patchTaskStatusNarrow
    by_cases h1 : s?.getD "" == ""
    · simp [h1]
    · by_cases h2 : s?.getD "" ∈ validStatusesNarrow
      · have hmap := filter_not_owned_map db uid tid
          (fun t => { t with status := s?.getD "", updated_at := now })
          (fun _ => rfl)
        cases hq' : dbSingle
            (db.map fun t => if ownFilter uid tid t then
              { t with status := s?.getD "", updated_at := now } else t)
            (ownFilter uid tid) with
        | none => simp [h1, h2, hq', hmap]
        | some t' =>
          simp [h1, h2, hq', hmap, dbSingle_own_user _ uid tid t' hq']
      · simp [h1, h2]
  | children tid =>
    simp only [handle]
    unfold getChildrenHandler
    have hall := all_user_of_filter db uid
      (fun t => t.parent_task_id == some tid && t.user_id == uid)
      (fun t h => by rw [Bool.and_eq_true] at h; exact h.2)
    simp [hall]
  | withChildren tid =>
    simp only [handle]
    unfold getWithChildrenHandler
    cases hq : dbSingle db (ownFilter uid tid) with
    | none => simp [hq]
    | some p =>
      have hall := all_user_of_filter db uid
        (fun t => t.parent_task_id == some tid && t.user_id == uid)
        (fun t h => by rw [Bool.and_eq_true] at h; exact h.2)
      simp [hq, hall, dbSingle_own_user db uid tid p hq]
  | enhanceAi tid et =>
    simp only [handle]
    unfold enhanceAiHandler
    simp
  | sseOpen tid =>
    simp only [handle]
    simp

end TaskManager
